import Mathlib

/-!
# Student directory service (`main.go`)

A shallow embedding of the in-memory CRUD service of `main.go` and the
properties of its store and of its HTTP responses.

Modelling conventions.

* The package-level variables `studentList` and `idCounter` are the two fields
  of `Store`; every handler takes the store and returns the new one.  The mutex
  serialises the handlers, so a run is a sequence of requests.
* Go's `int` is modelled by `Int`.  `idCounter` starts at 1 and grows by one per
  successful create, so reaching the 64-bit bound takes 2^63 creates; the
  increment is therefore not wrapped.  `strconv.Atoi` keeps its 64-bit range
  check, since its input is chosen by the caller.
* A Go string that is only stored and copied (`Name`, `Faculty`, `Gender`, the
  method) is a `String`; the URL path, which is sliced and parsed, is a list of
  characters, one per byte.
* `json.NewDecoder(r.Body).Decode(&student)` either fails or fills a `Student`;
  a request carries that outcome in `Body`.  `json.NewEncoder(w).Encode(v)`
  writes the encoding of `v` to the response; the response body records the
  encoded values themselves (`Payload`), the encoding being a function of them.
* `ResponseWriter` follows `net/http`: the handler's header map, the headers
  frozen by `WriteHeader`, the status and the body.
-/

namespace CRUD

/-! ## Data model -/

/-- Student details: the struct `Student` of `main.go`. -/
structure Student where
  ID : Int
  Name : String
  Faculty : String
  Gender : String
deriving DecidableEq, Repr

/-- Package-level state of `main.go`: `studentList` and `idCounter`. -/
structure Store where
  studentList : List Student
  idCounter : Int
deriving DecidableEq, Repr

/-- State at process start: `studentList = []Student{}`, `idCounter = 1`. -/
def initStore : Store := ⟨[], 1⟩

/-! ## The `net/http` response writer -/

/-- Header map of a response, as an association list. -/
abbrev Header := List (String × String)

/-- Value a response body carries: the value handed to the JSON encoder, or
the plain text written by the multiplexer itself. -/
inductive Payload where
  | student (s : Student)
  | students (l : List Student)
  | text (s : String)
deriving DecidableEq, Repr

/-- Response under construction, after `net/http`'s `response`:
`handlerHeader` is the map returned by `w.Header()`, `sent` the headers frozen
when the status line is written, `body` the values written so far. -/
structure ResponseWriter where
  handlerHeader : Header
  wroteHeader : Bool
  status : Nat
  sent : Header
  body : List Payload
deriving DecidableEq, Repr

/-- Fresh response writer handed to a handler. -/
def newWriter : ResponseWriter := ⟨[], false, 0, [], []⟩

/-- Statuses that may carry a body (`bodyAllowedForStatus` of `net/http`). -/
def bodyAllowedForStatus (status : Nat) : Bool :=
  if 100 ≤ status ∧ status ≤ 199 then false
  else if status = 204 then false
  else if status = 304 then false
  else true

/-- Content type `net/http` sniffs for a body of JSON text when the handler
supplied none (`DetectContentType` on text without binary bytes). -/
def sniffedContentType : String := "text/plain; charset=utf-8"

/-- Call `w.Header().Set(k, v)`: changes the handler's map only. -/
def SetHeader (w : ResponseWriter) (k v : String) : ResponseWriter :=
  { w with handlerHeader := (k, v) :: w.handlerHeader.filter (fun kv => kv.1 != k) }

/-- Call `w.WriteHeader(code)`: the first call fixes the status and freezes
the headers set so far; a later call is ignored. -/
def WriteHeader (w : ResponseWriter) (code : Nat) : ResponseWriter :=
  if w.wroteHeader then w
  else { w with wroteHeader := true, status := code, sent := w.handlerHeader }

/-- Call `w.Write(p)`: writes the status line with 200 when none was written,
sniffs a content type when the frozen headers have none, appends to the body. -/
def Write (w : ResponseWriter) (p : Payload) : ResponseWriter :=
  let w1 := if w.wroteHeader then w else WriteHeader w 200
  if bodyAllowedForStatus w1.status then
    let sent := if w1.body = [] ∧ (w1.sent.lookup "Content-Type").isNone
      then w1.sent ++ [("Content-Type", sniffedContentType)] else w1.sent
    { w1 with sent := sent, body := w1.body ++ [p] }
  else w1

/-- Call `json.NewEncoder(w).Encode(v)`. -/
def Encode (w : ResponseWriter) (v : Payload) : ResponseWriter := Write w v

/-- End of a request: a handler that wrote nothing gets status 200. -/
def finish (w : ResponseWriter) : ResponseWriter :=
  if w.wroteHeader then w else WriteHeader w 200

/-- Content type of the response as sent. -/
def contentType (w : ResponseWriter) : Option String := w.sent.lookup "Content-Type"

/-! ## Requests -/

/-- Request as seen by the handlers: `r.Method`, `r.URL.Path`, and the outcome
of decoding `r.Body` into a `Student` (`none` when `Decode` returns an error). -/
structure Request where
  Method : String
  Path : List Char
  Body : Option Student
deriving DecidableEq, Repr

/-- Pattern of the collection route, `"/students"`. -/
def studentsPattern : List Char := "/students".toList

/-- Pattern of the item route, `"/students/"`. -/
def subtreePattern : List Char := "/students/".toList

/-! ## `strconv.Atoi` -/

/-- Digits of an unsigned decimal numeral, most significant first; `none` at a
character that is not a decimal digit. -/
def parseUint : List Char → Nat → Option Nat
  | [], acc => some acc
  | c :: cs, acc =>
    if c.isDigit then parseUint cs (acc * 10 + (c.toNat - 48)) else none

/-- Go's `strconv.Atoi` for a 64-bit `int`: an optional sign, then one or more
decimal digits, the value within `[-2^63, 2^63 - 1]`; `none` is an error. -/
def Atoi (s : List Char) : Option Int :=
  match s with
  | [] => none
  | c :: t =>
    let ds := if c = '+' ∨ c = '-' then t else c :: t
    if ds = [] then none
    else
      match parseUint ds 0 with
      | none => none
      | some un =>
        if c = '-' then (if un > 2 ^ 63 then none else some (-(un : Int)))
        else (if un ≥ 2 ^ 63 then none else some (un : Int))

/-! ## Handlers -/

/-- Loop `for i, student := range studentList { if student.ID == id { ... return } }`
shared by the three item handlers: the first index and record with this id. -/
def rangeFind (id : Int) : List Student → Option (Nat × Student)
  | [] => none
  | student :: rest =>
    if student.ID = id then some (0, student)
    else (rangeFind id rest).map (fun p => (p.1 + 1, p.2))

/-- Returns the list of all students in JSON format. -/
def listStudents (s : Store) (w : ResponseWriter) : Store × ResponseWriter :=
  (s, Encode (SetHeader w "Content-Type" "application/json") (.students s.studentList))

/-- Adds a new student from the POST request body. -/
def addNewStudent (s : Store) (w : ResponseWriter) (r : Request) : Store × ResponseWriter :=
  match r.Body with
  | none => (s, WriteHeader w 400)
  | some decoded =>
    let student := { decoded with ID := s.idCounter }
    let s1 : Store := ⟨s.studentList ++ [student], s.idCounter + 1⟩
    let w1 := WriteHeader w 201
    let w2 := SetHeader w1 "Content-Type" "application/json"
    (s1, Encode w2 (.student student))

/-- Finds and returns a student by their ID. -/
def findStudentByID (s : Store) (w : ResponseWriter) (id : Int) : Store × ResponseWriter :=
  match rangeFind id s.studentList with
  | some (_, student) =>
    (s, Encode (SetHeader w "Content-Type" "application/json") (.student student))
  | none => (s, WriteHeader w 404)

/-- Updates an existing student by their ID. -/
def editStudent (s : Store) (w : ResponseWriter) (r : Request) (id : Int) :
    Store × ResponseWriter :=
  match r.Body with
  | none => (s, WriteHeader w 400)
  | some updated =>
    match rangeFind id s.studentList with
    | some (i, student) =>
      let edited := { student with
        Name := updated.Name, Faculty := updated.Faculty, Gender := updated.Gender }
      ({ s with studentList := s.studentList.set i edited },
        Encode (SetHeader w "Content-Type" "application/json") (.student edited))
    | none => (s, WriteHeader w 404)

/-- Deletes a student by ID: `append(studentList[:i], studentList[i+1:]...)`. -/
def removeStudent (s : Store) (w : ResponseWriter) (id : Int) : Store × ResponseWriter :=
  match rangeFind id s.studentList with
  | some (i, _) =>
    ({ s with studentList := s.studentList.take i ++ s.studentList.drop (i + 1) },
      WriteHeader w 204)
  | none => (s, WriteHeader w 404)

/-- Handles student collection-level operations (GET, POST). -/
def handleAllStudents (s : Store) (w : ResponseWriter) (r : Request) : Store × ResponseWriter :=
  if r.Method = "GET" then listStudents s w
  else if r.Method = "POST" then addNewStudent s w r
  else (s, WriteHeader w 405)

/-- Handles student-specific operations (GET, PUT, DELETE) by student ID.
The slice `r.URL.Path[len("/students/"):]` panics on a shorter path: `none`. -/
def handleSingleStudent (s : Store) (w : ResponseWriter) (r : Request) :
    Option (Store × ResponseWriter) :=
  if r.Path.length < subtreePattern.length then none
  else
    let idStr := r.Path.drop subtreePattern.length
    match Atoi idStr with
    | none => some (s, WriteHeader w 400)
    | some id =>
      if r.Method = "GET" then some (findStudentByID s w id)
      else if r.Method = "PUT" then some (editStudent s w r id)
      else if r.Method = "DELETE" then some (removeStudent s w id)
      else some (s, WriteHeader w 405)

/-- Routes registered in `main`: the exact path `/students` goes to
`handleAllStudents`, every path under `/students/` to `handleSingleStudent`,
anything else gets the multiplexer's own 404 page.  A routed path always has
the prefix, so the panic branch of `handleSingleStudent` is never taken here.
The multiplexer's redirect of a path that is not clean (`//`, `.` or `..`
elements) is not modelled: such a request never reaches a handler and leaves
the store alone, and the responses of `serve` are read on clean paths only. -/
def serve (s : Store) (r : Request) : Store × ResponseWriter :=
  if r.Path = studentsPattern then
    let res := handleAllStudents s newWriter r
    (res.1, finish res.2)
  else if r.Path.take subtreePattern.length = subtreePattern then
    match handleSingleStudent s newWriter r with
    | some res => (res.1, finish res.2)
    | none => (s, newWriter)
  else
    let w1 := SetHeader newWriter "Content-Type" "text/plain; charset=utf-8"
    let w2 := SetHeader w1 "X-Content-Type-Options" "nosniff"
    (s, Write (WriteHeader w2 404) (.text "404 page not found\n"))

/-- Store after serving the requests in order. -/
def run (s : Store) (rs : List Request) : Store :=
  rs.foldl (fun st r => (serve st r).1) s

/-- Number of requests of the sequence answered 201, served in order from `s`. -/
def created (s : Store) : List Request → Nat
  | [] => 0
  | r :: rs => (if (serve s r).2.status = 201 then 1 else 0) + created (serve s r).1 rs

/-! ## Request builders used in the statements -/

/-- Request `POST /students` whose body decodes to `b`. -/
def postStudent (b : Student) : Request := ⟨"POST", studentsPattern, some b⟩

/-- Request `GET /students`. -/
def getStudents : Request := ⟨"GET", studentsPattern, none⟩

/-- Request with the given method and body on the path `/students/` ++ `seg`. -/
def itemRequest (method : String) (seg : List Char) (body : Option Student) : Request :=
  ⟨method, subtreePattern ++ seg, body⟩

/-! ## Properties stated by the specification -/

/-- Store invariant of the specification: ids pairwise distinct, each in
`[1, idCounter)`. -/
def StoreInv (s : Store) : Prop :=
  (s.studentList.map Student.ID).Nodup ∧
    ∀ st ∈ s.studentList, 1 ≤ st.ID ∧ st.ID < s.idCounter

/-- Outcome of a request that is not a successful create: the answer is not
201, the counter is unchanged and the ids are a sublist of the former ids. -/
def Quiet (s : Store) (res : Store × ResponseWriter) : Prop :=
  res.2.status ≠ 201 ∧ res.2.wroteHeader = true ∧ res.1.idCounter = s.idCounter ∧
    (res.1.studentList.map Student.ID).Sublist (s.studentList.map Student.ID)

/-- Segment that is a base-10 integer: an optional sign, then one or more
decimal digits. -/
def isBase10Integer (seg : List Char) : Bool :=
  match seg with
  | [] => false
  | c :: t =>
    let ds := if c = '+' ∨ c = '-' then t else c :: t
    !ds.isEmpty && ds.all Char.isDigit

/-- Records of the specification's "creation order": the bodies in order, the
first with id `c`, each next id one more. -/
def assignFrom (c : Int) : List Student → List Student
  | [] => []
  | b :: bs => ⟨c, b.Name, b.Faculty, b.Gender⟩ :: assignFrom (c + 1) bs

/-! ## Sample data of the specification's examples -/

/-- Body `{"name":"Ada","faculty":"CS","gender":"F"}` as decoded (no id: zero). -/
def ada : Student := ⟨0, "Ada", "CS", "F"⟩

/-- Body `{"name":"Grace","faculty":"Math","gender":"F"}` as decoded. -/
def grace : Student := ⟨0, "Grace", "Math", "F"⟩

/-- Store holding three records, two of them with id 1. -/
def sampleStore : Store :=
  ⟨[⟨1, "a", "x", "F"⟩, ⟨2, "b", "y", "M"⟩, ⟨1, "c", "z", "F"⟩], 3⟩

/-! ## Lemmas on the scan loop -/

theorem rangeFind_eq_none_iff (id : Int) (l : List Student) :
    rangeFind id l = none ↔ ∀ st ∈ l, st.ID ≠ id := by
  induction l with
  | nil => simp [rangeFind]
  | cons a l ih =>
    by_cases h : a.ID = id
    · simp [rangeFind, h]
    · simp [rangeFind, h, ih]

theorem rangeFind_some_spec (id : Int) (l : List Student) (i : Nat) (st : Student)
    (h : rangeFind id l = some (i, st)) :
    l[i]? = some st ∧ st.ID = id ∧ ∀ j, j < i → ∀ x, l[j]? = some x → x.ID ≠ id := by
  induction l generalizing i with
  | nil => simp [rangeFind] at h
  | cons a l ih =>
    by_cases ha : a.ID = id
    · simp only [rangeFind, ha, if_true, Option.some.injEq, Prod.mk.injEq] at h
      obtain ⟨rfl, rfl⟩ := h
      simp [ha]
    · simp only [rangeFind, ha, if_false, Option.map_eq_some', Prod.mk.injEq] at h
      obtain ⟨⟨k, y⟩, hk, rfl, rfl⟩ := h
      obtain ⟨h1, h2, h3⟩ := ih k hk
      refine ⟨by simpa using h1, h2, ?_⟩
      intro j hj x hx
      cases j with
      | zero =>
        simp only [List.getElem?_cons_zero, Option.some.injEq] at hx
        subst hx; exact ha
      | succ j =>
        simp only [List.getElem?_cons_succ] at hx
        exact h3 j (by omega) x hx

theorem rangeFind_isSome_of_mem (id : Int) (l : List Student)
    (h : ∃ st ∈ l, st.ID = id) : ∃ i st, rangeFind id l = some (i, st) := by
  cases hr : rangeFind id l with
  | none =>
    obtain ⟨st, hst, hid⟩ := h
    exact absurd hid ((rangeFind_eq_none_iff id l).1 hr st hst)
  | some p => exact ⟨p.1, p.2, rfl⟩

/-! ## Lemmas on the response writer -/

theorem writeHeader_new (code : Nat) :
    WriteHeader newWriter code = ⟨[], true, code, [], []⟩ := rfl

theorem encode_json_new (p : Payload) :
    Encode (SetHeader newWriter "Content-Type" "application/json") p =
      ⟨[("Content-Type", "application/json")], true, 200,
        [("Content-Type", "application/json")], [p]⟩ := by
  simp [Encode, Write, SetHeader, WriteHeader, newWriter, bodyAllowedForStatus]

theorem encode_created_new (p : Payload) :
    Encode (SetHeader (WriteHeader newWriter 201) "Content-Type" "application/json") p =
      ⟨[("Content-Type", "application/json")], true, 201,
        [("Content-Type", sniffedContentType)], [p]⟩ := by
  simp [Encode, Write, SetHeader, WriteHeader, newWriter, bodyAllowedForStatus]

theorem finish_of_wrote (w : ResponseWriter) (h : w.wroteHeader = true) : finish w = w := by
  simp [finish, h]

/-! ## Lemmas on the path and on `Atoi` -/

theorem parseUint_all_digits (ds : List Char) (acc n : Nat)
    (h : parseUint ds acc = some n) : ds.all Char.isDigit = true := by
  induction ds generalizing acc with
  | nil => rfl
  | cons c cs ih =>
    by_cases hc : c.isDigit = true
    · simp only [parseUint, hc, if_true] at h
      simp [hc, ih _ h]
    · simp [parseUint, hc] at h

theorem atoi_none_of_not_integer (seg : List Char) (h : isBase10Integer seg = false) :
    Atoi seg = none := by
  cases seg with
  | nil => rfl
  | cons c t =>
    simp only [Atoi]
    simp only [isBase10Integer] at h
    generalize (if c = '+' ∨ c = '-' then t else c :: t) = ds at h ⊢
    cases ds with
    | nil => rfl
    | cons d ds =>
      cases hp : parseUint (d :: ds) 0 with
      | none => simp
      | some un =>
        have hall := parseUint_all_digits _ _ _ hp
        rw [hall] at h
        simp at h

theorem path_drop (seg : List Char) :
    (subtreePattern ++ seg).drop subtreePattern.length = seg := List.drop_left _ _

theorem path_take (seg : List Char) :
    (subtreePattern ++ seg).take subtreePattern.length = subtreePattern := List.take_left _ _

theorem path_ne_students (seg : List Char) : subtreePattern ++ seg ≠ studentsPattern := by
  intro h
  have := congrArg List.length h
  simp [subtreePattern, studentsPattern] at this

theorem handleSingleStudent_item (s : Store) (w : ResponseWriter) (method : String)
    (seg : List Char) (body : Option Student) :
    handleSingleStudent s w (itemRequest method seg body) =
      match Atoi seg with
      | none => some (s, WriteHeader w 400)
      | some id =>
        if method = "GET" then some (findStudentByID s w id)
        else if method = "PUT" then some (editStudent s w (itemRequest method seg body) id)
        else if method = "DELETE" then some (removeStudent s w id)
        else some (s, WriteHeader w 405) := by
  simp only [handleSingleStudent, itemRequest, path_drop]
  rw [if_neg (by simp)]

theorem serve_item (s : Store) (method : String) (seg : List Char) (body : Option Student) :
    serve s (itemRequest method seg body) =
      match handleSingleStudent s newWriter (itemRequest method seg body) with
      | some res => (res.1, finish res.2)
      | none => (s, newWriter) := by
  simp only [serve]
  rw [if_neg (by simpa [itemRequest] using path_ne_students seg),
    if_pos (by simp [itemRequest, path_take])]

/-! ## Delete (C4) -/

/-- C4. Delete: for every store and integer id, when some record has the id,
`removeStudent` answers 204 with an empty body and the new list is the old one
with exactly the entry at the first matching index erased (the others keep
their values and order, the list is one shorter), `idCounter` unchanged; when
no record has the id it answers 404 and the store is unchanged. -/
theorem removeStudent_spec (s : Store) (id : Int) :
    ((∃ st ∈ s.studentList, st.ID = id) →
      ∃ i st, s.studentList[i]? = some st ∧ st.ID = id ∧
        (∀ j, j < i → ∀ x, s.studentList[j]? = some x → x.ID ≠ id) ∧
        (removeStudent s newWriter id).1.studentList = s.studentList.eraseIdx i ∧
        (removeStudent s newWriter id).1.studentList.length + 1 = s.studentList.length ∧
        ((removeStudent s newWriter id).1.studentList).Sublist s.studentList ∧
        (removeStudent s newWriter id).1.idCounter = s.idCounter ∧
        (removeStudent s newWriter id).2.status = 204 ∧
        (removeStudent s newWriter id).2.body = []) ∧
    ((¬ ∃ st ∈ s.studentList, st.ID = id) →
      (removeStudent s newWriter id).1 = s ∧
        (removeStudent s newWriter id).2.status = 404 ∧
        (removeStudent s newWriter id).2.body = []) := by
  constructor
  · intro h
    obtain ⟨i, st, hr⟩ := rangeFind_isSome_of_mem id s.studentList h
    obtain ⟨h1, h2, h3⟩ := rangeFind_some_spec id s.studentList i st hr
    have hlt : i < s.studentList.length := by
      rcases Nat.lt_or_ge i s.studentList.length with hlt | hge
      · exact hlt
      · rw [List.getElem?_eq_none hge] at h1; cases h1
    have herase : (removeStudent s newWriter id).1.studentList = s.studentList.eraseIdx i := by
      simp [removeStudent, hr, List.eraseIdx_eq_take_drop_succ]
    refine ⟨i, st, h1, h2, h3, herase, ?_, ?_, ?_, ?_, ?_⟩
    · rw [herase, List.length_eraseIdx_of_lt hlt]; omega
    · rw [herase]; exact List.eraseIdx_sublist _ _
    · simp [removeStudent, hr]
    · simp [removeStudent, hr, writeHeader_new]
    · simp [removeStudent, hr, writeHeader_new]
  · intro h
    have hn : rangeFind id s.studentList = none :=
      (rangeFind_eq_none_iff id s.studentList).2 (fun st hst hid => h ⟨st, hst, hid⟩)
    simp [removeStudent, hn, writeHeader_new]

/-- Witness of C4 on `sampleStore`: deleting id 1 (present) and id 7 (absent). -/
theorem removeStudent_spec_witness :
    (∃ st ∈ sampleStore.studentList, st.ID = 1) ∧
      (removeStudent sampleStore newWriter 1).2.status = 204 ∧
      (¬ ∃ st ∈ sampleStore.studentList, st.ID = 7) ∧
      (removeStudent sampleStore newWriter 7).1 = sampleStore := by
  have hex : ∃ st ∈ sampleStore.studentList, st.ID = 1 :=
    ⟨⟨1, "a", "x", "F"⟩, by simp [sampleStore], rfl⟩
  have hno : ¬ ∃ st ∈ sampleStore.studentList, st.ID = 7 := by simp [sampleStore]
  obtain ⟨_, _, _, _, _, _, _, _, _, hs, _⟩ := (removeStudent_spec sampleStore 1).1 hex
  exact ⟨hex, hs, hno, ((removeStudent_spec sampleStore 7).2 hno).1⟩

/-! ## Update (C5) -/

/-- C5. Update: for every store, integer id and decodable body `b`, when some
record has the id, `editStudent` answers 200 with the updated record and
replaces the record at the first matching index by one with the same id and
the name, faculty and gender of `b` (the id of `b` is ignored); every other
position, the length, the order of ids and `idCounter` are unchanged; when no
record has the id it answers 404 and the store is unchanged. -/
theorem editStudent_spec (s : Store) (id : Int) (b : Student) (method : String)
    (path : List Char) :
    ((∃ st ∈ s.studentList, st.ID = id) →
      ∃ i st, s.studentList[i]? = some st ∧ st.ID = id ∧
        (∀ j, j < i → ∀ x, s.studentList[j]? = some x → x.ID ≠ id) ∧
        (editStudent s newWriter ⟨method, path, some b⟩ id).1.studentList =
          s.studentList.set i ⟨st.ID, b.Name, b.Faculty, b.Gender⟩ ∧
        (editStudent s newWriter ⟨method, path, some b⟩ id).1.studentList[i]? =
          some ⟨id, b.Name, b.Faculty, b.Gender⟩ ∧
        (∀ j, j ≠ i → (editStudent s newWriter ⟨method, path, some b⟩ id).1.studentList[j]? =
          s.studentList[j]?) ∧
        (editStudent s newWriter ⟨method, path, some b⟩ id).1.studentList.length =
          s.studentList.length ∧
        (editStudent s newWriter ⟨method, path, some b⟩ id).1.studentList.map Student.ID =
          s.studentList.map Student.ID ∧
        (editStudent s newWriter ⟨method, path, some b⟩ id).1.idCounter = s.idCounter ∧
        (editStudent s newWriter ⟨method, path, some b⟩ id).2.status = 200 ∧
        (editStudent s newWriter ⟨method, path, some b⟩ id).2.body =
          [.student ⟨id, b.Name, b.Faculty, b.Gender⟩]) ∧
    ((¬ ∃ st ∈ s.studentList, st.ID = id) →
      (editStudent s newWriter ⟨method, path, some b⟩ id).1 = s ∧
        (editStudent s newWriter ⟨method, path, some b⟩ id).2.status = 404 ∧
        (editStudent s newWriter ⟨method, path, some b⟩ id).2.body = []) := by
  constructor
  · intro h
    obtain ⟨i, st, hr⟩ := rangeFind_isSome_of_mem id s.studentList h
    obtain ⟨h1, h2, h3⟩ := rangeFind_some_spec id s.studentList i st hr
    have hlt : i < s.studentList.length := by
      rcases Nat.lt_or_ge i s.studentList.length with hlt | hge
      · exact hlt
      · rw [List.getElem?_eq_none hge] at h1; cases h1
    have hset : (editStudent s newWriter ⟨method, path, some b⟩ id).1.studentList =
        s.studentList.set i ⟨st.ID, b.Name, b.Faculty, b.Gender⟩ := by
      simp [editStudent, hr]
    refine ⟨i, st, h1, h2, h3, hset, ?_, ?_, ?_, ?_, ?_, ?_, ?_⟩
    · rw [hset, List.getElem?_set_self hlt, h2]
    · intro j hj
      rw [hset, List.getElem?_set_ne (Ne.symm hj)]
    · rw [hset, List.length_set]
    · rw [hset, List.map_set]
      apply List.ext_getElem?
      intro n
      by_cases hn : i = n
      · subst hn
        rw [List.getElem?_set_self (by simpa using hlt)]
        simp [List.getElem?_map, h1]
      · rw [List.getElem?_set_ne hn]
    · simp [editStudent, hr]
    · simp [editStudent, hr, encode_json_new]
    · simp [editStudent, hr, encode_json_new, h2]
  · intro h
    have hn : rangeFind id s.studentList = none :=
      (rangeFind_eq_none_iff id s.studentList).2 (fun st hst hid => h ⟨st, hst, hid⟩)
    simp [editStudent, hn, writeHeader_new]

/-- Witness of C5: `PUT /students/1` with Grace after creating Ada answers 200
with the record of id 1 carrying Grace's fields; an update of id 7 answers 404. -/
theorem editStudent_spec_witness :
    (∃ st ∈ (serve initStore (postStudent ada)).1.studentList, st.ID = 1) ∧
      (serve (serve initStore (postStudent ada)).1
        (itemRequest "PUT" ['1'] (some grace))).2.status = 200 ∧
      (serve (serve initStore (postStudent ada)).1
        (itemRequest "PUT" ['1'] (some grace))).2.body = [.student ⟨1, "Grace", "Math", "F"⟩] ∧
      (editStudent (serve initStore (postStudent ada)).1 newWriter
        ⟨"PUT", subtreePattern ++ ['1'], some grace⟩ 1).2.body =
          [.student ⟨1, grace.Name, grace.Faculty, grace.Gender⟩] ∧
      (¬ ∃ st ∈ sampleStore.studentList, st.ID = 7) ∧
      (editStudent sampleStore newWriter ⟨"PUT", subtreePattern ++ ['7'], some grace⟩ 7).1 =
        sampleStore := by
  have hex : ∃ st ∈ (serve initStore (postStudent ada)).1.studentList, st.ID = 1 :=
    ⟨⟨1, "Ada", "CS", "F"⟩, by decide, rfl⟩
  have hno : ¬ ∃ st ∈ sampleStore.studentList, st.ID = 7 := by simp [sampleStore]
  obtain ⟨_, _, _, _, _, _, _, _, _, _, _, _, hb⟩ :=
    (editStudent_spec (serve initStore (postStudent ada)).1 1 grace "PUT"
      (subtreePattern ++ ['1'])).1 hex
  exact ⟨hex, by decide, by decide, hb, hno,
    ((editStudent_spec sampleStore 7 grace "PUT" (subtreePattern ++ ['7'])).2 hno).1⟩

/-! ## Invalid identifier (C8) -/

/-- C8. Invalid identifier: for every store, method and body, a request routed
to `handleSingleStudent` on a path `/students/` ++ `seg` whose segment `seg`
is not a base-10 integer (the empty segment included) is answered 400 with no
body, and the store (list and counter) is unchanged. -/
theorem handleSingleStudent_invalid_id (s : Store) (method : String) (seg : List Char)
    (body : Option Student) (h : isBase10Integer seg = false) :
    handleSingleStudent s newWriter (itemRequest method seg body) =
        some (s, WriteHeader newWriter 400) ∧
      (WriteHeader newWriter 400).status = 400 ∧
      (WriteHeader newWriter 400).body = [] := by
  refine ⟨?_, rfl, rfl⟩
  rw [handleSingleStudent_item, atoi_none_of_not_integer seg h]

/-- Witness of C8: `DELETE /students/abc` and `PUT /students/` (empty segment)
handled on `sampleStore`. -/
theorem handleSingleStudent_invalid_id_witness :
    isBase10Integer ['a', 'b', 'c'] = false ∧
      handleSingleStudent sampleStore newWriter (itemRequest "DELETE" ['a', 'b', 'c'] none) =
        some (sampleStore, WriteHeader newWriter 400) ∧
      isBase10Integer [] = false ∧
      handleSingleStudent sampleStore newWriter (itemRequest "PUT" [] (some grace)) =
        some (sampleStore, WriteHeader newWriter 400) :=
  ⟨by decide,
    (handleSingleStudent_invalid_id sampleStore "DELETE" ['a', 'b', 'c'] none (by decide)).1,
    by decide,
    (handleSingleStudent_invalid_id sampleStore "PUT" [] (some grace) (by decide)).1⟩

/-! ## Unsupported method (C9) -/

/-- C9. Unsupported method: a request to `/students` whose method is neither
GET nor POST, and a request to `/students/{id}` (the segment parses to an
integer `id`) whose method is none of GET, PUT, DELETE, is answered 405 with
no body and the store is unchanged, by the handler and through the routes. -/
theorem method_not_allowed (s : Store) (method : String) (body : Option Student) :
    (method ≠ "GET" → method ≠ "POST" →
      handleAllStudents s newWriter ⟨method, studentsPattern, body⟩ =
          (s, WriteHeader newWriter 405) ∧
        (serve s ⟨method, studentsPattern, body⟩).1 = s ∧
        (serve s ⟨method, studentsPattern, body⟩).2.status = 405 ∧
        (serve s ⟨method, studentsPattern, body⟩).2.body = []) ∧
    (∀ (seg : List Char) (id : Int), Atoi seg = some id →
      method ≠ "GET" → method ≠ "PUT" → method ≠ "DELETE" →
      handleSingleStudent s newWriter (itemRequest method seg body) =
          some (s, WriteHeader newWriter 405) ∧
        (serve s (itemRequest method seg body)).1 = s ∧
        (serve s (itemRequest method seg body)).2.status = 405 ∧
        (serve s (itemRequest method seg body)).2.body = []) := by
  constructor
  · intro h1 h2
    have hh : handleAllStudents s newWriter ⟨method, studentsPattern, body⟩ =
        (s, WriteHeader newWriter 405) := by
      simp [handleAllStudents, h1, h2]
    refine ⟨hh, ?_, ?_, ?_⟩ <;> simp [serve, hh, writeHeader_new, finish]
  · intro seg id hid h1 h2 h3
    have hh : handleSingleStudent s newWriter (itemRequest method seg body) =
        some (s, WriteHeader newWriter 405) := by
      rw [handleSingleStudent_item, hid]
      simp [h1, h2, h3]
    refine ⟨hh, ?_, ?_, ?_⟩ <;> simp [serve_item, hh, writeHeader_new, finish]

/-- Witness of C9: `PATCH /students` and `PATCH /students/1` on `sampleStore`. -/
theorem method_not_allowed_witness :
    ("PATCH" ≠ "GET" ∧ "PATCH" ≠ "POST" ∧ "PATCH" ≠ "PUT" ∧ "PATCH" ≠ "DELETE") ∧
      Atoi ['1'] = some 1 ∧
      (serve sampleStore ⟨"PATCH", studentsPattern, none⟩).2.status = 405 ∧
      (serve sampleStore (itemRequest "PATCH" ['1'] none)).2.status = 405 ∧
      (serve sampleStore (itemRequest "PATCH" ['1'] none)).1 = sampleStore :=
  ⟨by decide, by decide,
    ((method_not_allowed sampleStore "PATCH" none).1 (by decide) (by decide)).2.2.1,
    ((method_not_allowed sampleStore "PATCH" none).2 ['1'] 1 (by decide)
      (by decide) (by decide) (by decide)).2.2.1,
    ((method_not_allowed sampleStore "PATCH" none).2 ['1'] 1 (by decide)
      (by decide) (by decide) (by decide)).2.1⟩

/-! ## Content type (C10) -/

/-- Content type of the bodies of list, read and update: these three handlers
set the header before the first write, so `application/json` is sent. -/
theorem contentType_json_siblings (s : Store) (id : Int) (st : Student) (i : Nat)
    (r : Request) (b : Student) (hb : r.Body = some b)
    (hfind : rangeFind id s.studentList = some (i, st)) :
    contentType (listStudents s newWriter).2 = some "application/json" ∧
      contentType (findStudentByID s newWriter id).2 = some "application/json" ∧
      contentType (editStudent s newWriter r id).2 = some "application/json" := by
  refine ⟨?_, ?_, ?_⟩
  · simp [listStudents, encode_json_new, contentType]
  · simp [findStudentByID, hfind, encode_json_new, contentType]
  · simp [editStudent, hb, hfind, encode_json_new, contentType]

/-- C10 on the code. For every store and decodable body, `addNewStudent`
answers 201 with the created record in the body, the handler's header map
holds `application/json`, yet the response as sent does not carry it: the
header was set after `WriteHeader(201)`, and the sniffed type goes out. -/
theorem addNewStudent_contentType_not_json (s : Store) (b : Student) :
    (addNewStudent s newWriter (postStudent b)).2.status = 201 ∧
      (addNewStudent s newWriter (postStudent b)).2.body =
        [.student ⟨s.idCounter, b.Name, b.Faculty, b.Gender⟩] ∧
      (addNewStudent s newWriter (postStudent b)).2.handlerHeader.lookup "Content-Type" =
        some "application/json" ∧
      contentType (addNewStudent s newWriter (postStudent b)).2 =
        some "text/plain; charset=utf-8" ∧
      contentType (addNewStudent s newWriter (postStudent b)).2 ≠ some "application/json" ∧
      contentType (serve s (postStudent b)).2 ≠ some "application/json" := by
  have hw : (addNewStudent s newWriter (postStudent b)).2 =
      ⟨[("Content-Type", "application/json")], true, 201,
        [("Content-Type", sniffedContentType)],
        [.student ⟨s.idCounter, b.Name, b.Faculty, b.Gender⟩]⟩ := by
    simp [addNewStudent, postStudent, encode_created_new]
  have hserve : (serve s (postStudent b)).2 = (addNewStudent s newWriter (postStudent b)).2 := by
    simp [serve, handleAllStudents, postStudent, addNewStudent, encode_created_new, finish]
  rw [hserve, hw]
  simp [contentType, sniffedContentType]

/-! ## Effect of one request on the store -/

theorem rangeFind_set_map_ID (id : Int) (l : List Student) (i : Nat) (st : Student)
    (n f g : String) (h : rangeFind id l = some (i, st)) :
    (l.set i ⟨st.ID, n, f, g⟩).map Student.ID = l.map Student.ID := by
  obtain ⟨h1, _, _⟩ := rangeFind_some_spec id l i st h
  rw [List.map_set]
  apply List.ext_getElem?
  intro k
  by_cases hk : i = k
  · subst hk
    by_cases hlt : i < (l.map Student.ID).length
    · rw [List.getElem?_set_self hlt]
      simp [List.getElem?_map, h1]
    · rw [List.getElem?_eq_none (by simpa using hlt), List.getElem?_eq_none (by simpa using hlt)]
  · rw [List.getElem?_set_ne hk]

theorem take_drop_sublist (l : List Student) (i : Nat) :
    (l.take i ++ l.drop (i + 1)).Sublist l := by
  rw [← List.eraseIdx_eq_take_drop_succ]
  exact List.eraseIdx_sublist _ _

theorem quiet_same (s : Store) (w : ResponseWriter) (h1 : w.status ≠ 201)
    (h2 : w.wroteHeader = true) : Quiet s (s, w) :=
  ⟨h1, h2, rfl, List.Sublist.refl _⟩

theorem findStudentByID_quiet (s : Store) (id : Int) :
    Quiet s (findStudentByID s newWriter id) := by
  unfold findStudentByID
  cases rangeFind id s.studentList with
  | none => exact quiet_same _ _ (by simp [writeHeader_new]) (by simp [writeHeader_new])
  | some p => exact quiet_same _ _ (by simp [encode_json_new]) (by simp [encode_json_new])

theorem editStudent_quiet (s : Store) (r : Request) (id : Int) :
    Quiet s (editStudent s newWriter r id) := by
  unfold editStudent
  cases r.Body with
  | none => exact quiet_same _ _ (by simp [writeHeader_new]) (by simp [writeHeader_new])
  | some b =>
    cases hr : rangeFind id s.studentList with
    | none => exact quiet_same _ _ (by simp [writeHeader_new]) (by simp [writeHeader_new])
    | some p =>
      obtain ⟨i, st⟩ := p
      refine ⟨by simp [encode_json_new], by simp [encode_json_new], rfl, ?_⟩
      simp only
      rw [rangeFind_set_map_ID id s.studentList i st _ _ _ hr]

theorem removeStudent_quiet (s : Store) (id : Int) :
    Quiet s (removeStudent s newWriter id) := by
  unfold removeStudent
  cases hr : rangeFind id s.studentList with
  | none => exact quiet_same _ _ (by simp [writeHeader_new]) (by simp [writeHeader_new])
  | some p =>
    refine ⟨by simp [writeHeader_new], by simp [writeHeader_new], rfl, ?_⟩
    exact (take_drop_sublist s.studentList p.1).map _

theorem handleSingleStudent_quiet (s : Store) (r : Request) (res : Store × ResponseWriter)
    (h : handleSingleStudent s newWriter r = some res) : Quiet s res := by
  unfold handleSingleStudent at h
  split at h
  · cases h
  · simp only at h
    split at h
    · cases h
      exact quiet_same _ _ (by simp [writeHeader_new]) (by simp [writeHeader_new])
    · split at h
      · cases h; exact findStudentByID_quiet s _
      · split at h
        · cases h; exact editStudent_quiet s r _
        · split at h
          · cases h; exact removeStudent_quiet s _
          · cases h
            exact quiet_same _ _ (by simp [writeHeader_new]) (by simp [writeHeader_new])

theorem serve_postStudent (s : Store) (b : Student) :
    serve s (postStudent b) =
      (⟨s.studentList ++ [⟨s.idCounter, b.Name, b.Faculty, b.Gender⟩], s.idCounter + 1⟩,
        ⟨[("Content-Type", "application/json")], true, 201,
          [("Content-Type", sniffedContentType)],
          [.student ⟨s.idCounter, b.Name, b.Faculty, b.Gender⟩]⟩) := by
  simp [serve, handleAllStudents, postStudent, addNewStudent, encode_created_new, finish]

/-- One request either is a successful create (`POST /students` with a body
that decodes) or leaves the counter alone and answers something else than 201. -/
theorem serve_cases (s : Store) (r : Request) :
    (∃ b, r = postStudent b) ∨ Quiet s (serve s r) := by
  unfold serve
  split
  · rename_i hp
    by_cases hg : r.Method = "GET"
    · right
      simp only [handleAllStudents, hg, if_true, listStudents, encode_json_new, finish]
      exact quiet_same _ _ (by simp) (by simp)
    · by_cases hpost : r.Method = "POST"
      · cases hb : r.Body with
        | none =>
          right
          simp only [handleAllStudents, hg, hpost, if_true, if_false, addNewStudent, hb,
            writeHeader_new, finish]
          exact quiet_same _ _ (by simp) (by simp)
        | some b =>
          left
          refine ⟨b, ?_⟩
          cases r
          simp_all [postStudent]
      · right
        simp only [handleAllStudents, hg, hpost, if_false, writeHeader_new, finish]
        exact quiet_same _ _ (by simp) (by simp)
  · split
    · right
      cases hh : handleSingleStudent s newWriter r with
      | none => exact absurd hh (by
          unfold handleSingleStudent
          rename_i hp
          have : ¬ r.Path.length < subtreePattern.length := by
            intro hlt
            have := congrArg List.length hp
            rw [List.length_take] at this
            omega
          rw [if_neg this]
          simp only
          split <;> (try split) <;> (try split) <;> (try split) <;> simp)
      | some res =>
        obtain ⟨h1, h2, h3, h4⟩ := handleSingleStudent_quiet s r res hh
        simp only [finish_of_wrote _ h2]
        exact ⟨h1, h2, h3, h4⟩
    · right
      exact quiet_same _ _ (by simp [Write, WriteHeader, SetHeader, newWriter, bodyAllowedForStatus])
        (by simp [Write, WriteHeader, SetHeader, newWriter, bodyAllowedForStatus])

/-! ## Runs -/

theorem run_nil (s : Store) : run s [] = s := rfl

theorem run_cons (s : Store) (r : Request) (rs : List Request) :
    run s (r :: rs) = run (serve s r).1 rs := rfl

theorem created_append (s : Store) (rs ts : List Request) :
    created s (rs ++ ts) = created s rs + created (run s rs) ts := by
  induction rs generalizing s with
  | nil => simp [created, run_nil]
  | cons r rs ih => simp [created, run_cons, ih, Nat.add_assoc]

theorem storeInv_init : StoreInv initStore ∧ 1 ≤ initStore.idCounter := by
  simp [StoreInv, initStore]

/-- The invariant is inductive together with `1 ≤ idCounter`. -/
theorem storeInv_serve (s : Store) (r : Request) (h : StoreInv s ∧ 1 ≤ s.idCounter) :
    StoreInv (serve s r).1 ∧ 1 ≤ (serve s r).1.idCounter := by
  obtain ⟨⟨hnd, hrange⟩, hone⟩ := h
  rcases serve_cases s r with ⟨b, rfl⟩ | ⟨_, _, hc, hsub⟩
  · rw [serve_postStudent]
    refine ⟨⟨?_, ?_⟩, by show 1 ≤ s.idCounter + 1; omega⟩
    · simp only [List.map_append, List.map_cons, List.map_nil]
      rw [List.nodup_append]
      refine ⟨hnd, by simp, ?_⟩
      intro x hx hx2
      simp only [List.mem_singleton] at hx2
      obtain ⟨st, hst, rfl⟩ := List.mem_map.1 hx
      have := (hrange st hst).2
      omega
    · intro st hst
      simp only [List.mem_append, List.mem_singleton] at hst
      rcases hst with hst | rfl
      · have := hrange st hst
        exact ⟨this.1, by have := this.2; show st.ID < s.idCounter + 1; omega⟩
      · exact ⟨hone, by show s.idCounter < s.idCounter + 1; omega⟩
  · refine ⟨⟨hsub.nodup hnd, ?_⟩, by rw [hc]; exact hone⟩
    intro st hst
    have hmem : st.ID ∈ s.studentList.map Student.ID :=
      hsub.subset (List.mem_map_of_mem _ hst)
    obtain ⟨st0, hst0, heq⟩ := List.mem_map.1 hmem
    rw [hc, ← heq]
    exact hrange st0 hst0

theorem storeInv_run (s : Store) (rs : List Request) (h : StoreInv s ∧ 1 ≤ s.idCounter) :
    StoreInv (run s rs) ∧ 1 ≤ (run s rs).idCounter := by
  induction rs generalizing s with
  | nil => exact h
  | cons r rs ih => exact ih _ (storeInv_serve s r h)

theorem serve_status_created (s : Store) (r : Request) :
    (serve s r).2.status = 201 ↔ ∃ b, r = postStudent b := by
  constructor
  · intro h
    rcases serve_cases s r with hb | hq
    · exact hb
    · exact absurd h hq.1
  · rintro ⟨b, rfl⟩
    rw [serve_postStudent]

theorem idCounter_serve (s : Store) (r : Request) :
    (serve s r).1.idCounter = s.idCounter + (if (serve s r).2.status = 201 then 1 else 0) := by
  rcases serve_cases s r with ⟨b, rfl⟩ | ⟨h1, _, hc, _⟩
  · simp [serve_postStudent]
  · simp [h1, hc]

theorem idCounter_run (s : Store) (rs : List Request) :
    (run s rs).idCounter = s.idCounter + (created s rs : Int) := by
  induction rs generalizing s with
  | nil => simp [run_nil, created]
  | cons r rs ih =>
    rw [run_cons, ih, idCounter_serve, created]
    split <;> push_cast <;> omega

/-! ## Store invariant (C1) -/

/-- C1. Store invariant: in the initial state (the empty sequence) and after
every sequence of requests served by the routes of `main`, whatever their
methods, paths and bodies, the ids in `studentList` are pairwise distinct and
every one of them satisfies `1 ≤ id < idCounter`. -/
theorem store_invariant (rs : List Request) :
    ((run initStore rs).studentList.map Student.ID).Nodup ∧
      ∀ st ∈ (run initStore rs).studentList, 1 ≤ st.ID ∧ st.ID < (run initStore rs).idCounter :=
  (storeInv_run initStore rs storeInv_init).1

/-- Witness of C1 on a run with creates, an update, a delete and bad requests. -/
theorem store_invariant_witness :
    (run initStore [postStudent ada, postStudent grace, itemRequest "PUT" ['2'] (some ada),
        itemRequest "DELETE" ['1'] none, itemRequest "GET" ['x'] none,
        postStudent ada]).studentList.map Student.ID = [2, 3] ∧
      ((run initStore [postStudent ada, postStudent grace, itemRequest "PUT" ['2'] (some ada),
        itemRequest "DELETE" ['1'] none, itemRequest "GET" ['x'] none,
        postStudent ada]).studentList.map Student.ID).Nodup :=
  ⟨by decide, (store_invariant [postStudent ada, postStudent grace,
    itemRequest "PUT" ['2'] (some ada), itemRequest "DELETE" ['1'] none,
    itemRequest "GET" ['x'] none, postStudent ada]).1⟩

/-! ## Id assignment (C2) -/

/-- C2. Id assignment: after any sequence of requests `rs` from the initial
state, a create whose body decodes to `b` is answered 201 with id `k`, where
`k - 1` is the number of requests of `rs` answered 201 (the successful
creates), whatever id `b` carried; the record is appended with that id, no
record of the store has it, and it is larger than the id given to any earlier
create of the sequence, so an id is never used twice. -/
theorem create_assigns_kth_id (rs : List Request) (b : Student) :
    (serve (run initStore rs) (postStudent b)).2.status = 201 ∧
      (serve (run initStore rs) (postStudent b)).2.body =
        [.student ⟨(created initStore rs : Int) + 1, b.Name, b.Faculty, b.Gender⟩] ∧
      (serve (run initStore rs) (postStudent b)).1.studentList =
        (run initStore rs).studentList ++
          [⟨(created initStore rs : Int) + 1, b.Name, b.Faculty, b.Gender⟩] ∧
      created initStore (rs ++ [postStudent b]) = created initStore rs + 1 ∧
      (∀ st ∈ (run initStore rs).studentList, st.ID ≠ (created initStore rs : Int) + 1) ∧
      (∀ (rs1 rs2 : List Request) (b1 : Student), rs = rs1 ++ postStudent b1 :: rs2 →
        (serve (run initStore rs1) (postStudent b1)).2.body =
            [.student ⟨(created initStore rs1 : Int) + 1, b1.Name, b1.Faculty, b1.Gender⟩] ∧
          (created initStore rs1 : Int) + 1 < (created initStore rs : Int) + 1) := by
  have hc : ∀ ts : List Request, (run initStore ts).idCounter = (created initStore ts : Int) + 1 := by
    intro ts
    rw [idCounter_run]; simp [initStore]; omega
  refine ⟨?_, ?_, ?_, ?_, ?_, ?_⟩
  · rw [serve_postStudent]
  · rw [serve_postStudent, hc]
  · rw [serve_postStudent, hc]
  · rw [created_append]
    simp [created, serve_postStudent]
  · intro st hst
    have := ((storeInv_run initStore rs storeInv_init).1.2 st hst).2
    rw [hc] at this
    omega
  · intro rs1 rs2 b1 hrs
    refine ⟨by rw [serve_postStudent, hc], ?_⟩
    subst hrs
    rw [created_append]
    simp only [created, serve_postStudent]
    push_cast
    omega

/-- Witness of C2: after a create, a delete of the created record and a create
whose body does not decode, the next create gets id 2 although its body says 0
and although id 1 is free again. -/
theorem create_assigns_kth_id_witness :
    created initStore
        [postStudent ada, itemRequest "DELETE" ['1'] none, ⟨"POST", studentsPattern, none⟩] = 1 ∧
      (run initStore
        [postStudent ada, itemRequest "DELETE" ['1'] none,
          ⟨"POST", studentsPattern, none⟩]).studentList = [] ∧
      (serve (run initStore
        [postStudent ada, itemRequest "DELETE" ['1'] none, ⟨"POST", studentsPattern, none⟩])
        (postStudent grace)).2.body = [.student ⟨2, "Grace", "Math", "F"⟩] := by
  refine ⟨by decide, by decide, ?_⟩
  have h := (create_assigns_kth_id
    [postStudent ada, itemRequest "DELETE" ['1'] none, ⟨"POST", studentsPattern, none⟩]
    grace).2.1
  rw [h]
  decide

/-! ## Create and read (C3) -/

theorem rangeFind_append_new (id : Int) (l : List Student) (st : Student)
    (hl : ∀ x ∈ l, x.ID ≠ id) (hst : st.ID = id) :
    rangeFind id (l ++ [st]) = some (l.length, st) := by
  induction l with
  | nil => simp [rangeFind, hst]
  | cons a l ih =>
    have ha : a.ID ≠ id := hl a (by simp)
    have := ih (fun x hx => hl x (by simp [hx]))
    simp [rangeFind, ha, this]

/-- C3. Create/read round trip: in every store reached from the initial state
and for every decodable body `b`, `POST /students` answers 201 with the record
made of the old `idCounter` and the name, faculty and gender of `b`, and a
`GET /students/{id}` that follows at once, its segment denoting that id,
answers 200 with the same record and leaves the store as the create left it. -/
theorem create_read_round_trip (rs : List Request) (b : Student) (seg : List Char)
    (body : Option Student) (hseg : Atoi seg = some (run initStore rs).idCounter) :
    (serve (run initStore rs) (postStudent b)).2.status = 201 ∧
      (serve (run initStore rs) (postStudent b)).2.body =
        [.student ⟨(run initStore rs).idCounter, b.Name, b.Faculty, b.Gender⟩] ∧
      (serve (serve (run initStore rs) (postStudent b)).1
        (itemRequest "GET" seg body)).2.status = 200 ∧
      (serve (serve (run initStore rs) (postStudent b)).1 (itemRequest "GET" seg body)).2.body =
        (serve (run initStore rs) (postStudent b)).2.body ∧
      (serve (serve (run initStore rs) (postStudent b)).1 (itemRequest "GET" seg body)).1 =
        (serve (run initStore rs) (postStudent b)).1 := by
  have hinv := (storeInv_run initStore rs storeInv_init).1
  have hfind : rangeFind (run initStore rs).idCounter
      ((run initStore rs).studentList ++
        [⟨(run initStore rs).idCounter, b.Name, b.Faculty, b.Gender⟩]) =
      some ((run initStore rs).studentList.length,
        ⟨(run initStore rs).idCounter, b.Name, b.Faculty, b.Gender⟩) :=
    rangeFind_append_new _ _ _ (fun x hx => by have := (hinv.2 x hx).2; omega) rfl
  have hget : serve (serve (run initStore rs) (postStudent b)).1 (itemRequest "GET" seg body) =
      ((serve (run initStore rs) (postStudent b)).1,
        ⟨[("Content-Type", "application/json")], true, 200,
          [("Content-Type", "application/json")],
          [.student ⟨(run initStore rs).idCounter, b.Name, b.Faculty, b.Gender⟩]⟩) := by
    rw [serve_item, handleSingleStudent_item, hseg]
    simp [serve_postStudent, findStudentByID, hfind, encode_json_new, finish]
  rw [hget]
  simp [serve_postStudent]

/-- Witness of C3: Ada on the initial state is created with id 1 and
`GET /students/1` returns the same record. -/
theorem create_read_round_trip_witness :
    Atoi ['1'] = some (run initStore []).idCounter ∧
      (serve initStore (postStudent ada)).2.body = [.student ⟨1, "Ada", "CS", "F"⟩] ∧
      (serve (serve (run initStore []) (postStudent ada)).1
        (itemRequest "GET" ['1'] none)).2.status = 200 ∧
      (serve (serve (run initStore []) (postStudent ada)).1
        (itemRequest "GET" ['1'] none)).2.body =
          (serve (run initStore []) (postStudent ada)).2.body :=
  ⟨by decide, by decide,
    (create_read_round_trip [] ada ['1'] none (by decide)).2.2.1,
    (create_read_round_trip [] ada ['1'] none (by decide)).2.2.2.1⟩

/-! ## Delete then read (C6) -/

theorem rangeFind_removed (id : Int) (l : List Student) (i : Nat) (st : Student)
    (hnd : (l.map Student.ID).Nodup) (h : rangeFind id l = some (i, st)) :
    ∀ x ∈ l.take i ++ l.drop (i + 1), x.ID ≠ id := by
  induction l generalizing i with
  | nil => simp [rangeFind] at h
  | cons a l ih =>
    rw [List.map_cons, List.nodup_cons] at hnd
    by_cases ha : a.ID = id
    · simp only [rangeFind, ha, if_true, Option.some.injEq, Prod.mk.injEq] at h
      obtain ⟨rfl, rfl⟩ := h
      intro x hx hxid
      simp only [List.take_zero, List.nil_append, Nat.zero_add, List.drop_succ_cons,
        List.drop_zero] at hx
      exact hnd.1 (by rw [ha, ← hxid]; exact List.mem_map_of_mem _ hx)
    · simp only [rangeFind, ha, if_false, Option.map_eq_some', Prod.mk.injEq] at h
      obtain ⟨⟨k, y⟩, hk, rfl, rfl⟩ := h
      intro x hx
      simp only [List.take_succ_cons, List.cons_append, List.drop_succ_cons,
        List.mem_cons] at hx
      rcases hx with rfl | hx
      · exact ha
      · exact ih k hnd.2 hk x hx

/-- C6. Delete then read: in every store reached from the initial state, when
`DELETE /students/{id}` is answered 204, a `GET /students/{id}` on the same
path that follows at once is answered 404 with no body, and no record with the
id denoted by the segment remains in the list. -/
theorem delete_then_read (rs : List Request) (seg : List Char) (body1 body2 : Option Student)
    (h : (serve (run initStore rs) (itemRequest "DELETE" seg body1)).2.status = 204) :
    (serve (serve (run initStore rs) (itemRequest "DELETE" seg body1)).1
        (itemRequest "GET" seg body2)).2.status = 404 ∧
      (serve (serve (run initStore rs) (itemRequest "DELETE" seg body1)).1
        (itemRequest "GET" seg body2)).2.body = [] ∧
      ∃ id, Atoi seg = some id ∧
        ∀ st ∈ (serve (run initStore rs) (itemRequest "DELETE" seg body1)).1.studentList,
          st.ID ≠ id := by
  have hinv := (storeInv_run initStore rs storeInv_init).1
  generalize run initStore rs = s at h hinv ⊢
  rw [serve_item, handleSingleStudent_item] at h
  cases hid : Atoi seg with
  | none =>
    rw [hid] at h
    simp [writeHeader_new, finish] at h
  | some id =>
    rw [hid] at h
    cases hr : rangeFind id s.studentList with
    | none =>
      simp [removeStudent, hr, writeHeader_new, finish] at h
    | some p =>
      obtain ⟨i, st⟩ := p
      have hgone := rangeFind_removed id s.studentList i st hinv.1 hr
      have hdel : (serve s (itemRequest "DELETE" seg body1)).1 =
          ⟨s.studentList.take i ++ s.studentList.drop (i + 1), s.idCounter⟩ := by
        rw [serve_item, handleSingleStudent_item, hid]
        simp [removeStudent, hr]
      have hnone : rangeFind id (s.studentList.take i ++ s.studentList.drop (i + 1)) = none :=
        (rangeFind_eq_none_iff _ _).2 hgone
      rw [hdel]
      refine ⟨?_, ?_, id, rfl, hgone⟩
      · rw [serve_item, handleSingleStudent_item, hid]
        simp [findStudentByID, hnone, writeHeader_new, finish]
      · rw [serve_item, handleSingleStudent_item, hid]
        simp [findStudentByID, hnone, writeHeader_new, finish]

/-- Reachability matters for C6: on `sampleStore`, which holds id 1 twice and
is not reachable, the read after a successful delete of id 1 still answers 200. -/
theorem delete_then_read_needs_distinct_ids :
    (serve sampleStore (itemRequest "DELETE" ['1'] none)).2.status = 204 ∧
      (serve (serve sampleStore (itemRequest "DELETE" ['1'] none)).1
        (itemRequest "GET" ['1'] none)).2.status = 200 := by
  decide

/-- Witness of C6: after creating Ada, `DELETE /students/1` answers 204 and
the following `GET /students/1` answers 404. -/
theorem delete_then_read_witness :
    (serve (run initStore [postStudent ada]) (itemRequest "DELETE" ['1'] none)).2.status = 204 ∧
      (serve (serve (run initStore [postStudent ada]) (itemRequest "DELETE" ['1'] none)).1
        (itemRequest "GET" ['1'] none)).2.status = 404 :=
  ⟨by decide, (delete_then_read [postStudent ada] ['1'] none none (by decide)).1⟩

/-! ## List after creates (C7) -/

theorem assignFrom_length (c : Int) (bs : List Student) :
    (assignFrom c bs).length = bs.length := by
  induction bs generalizing c with
  | nil => rfl
  | cons b bs ih => simp [assignFrom, ih]

theorem assignFrom_getElem? (c : Int) (bs : List Student) (i : Nat) (b : Student)
    (h : bs[i]? = some b) :
    (assignFrom c bs)[i]? = some ⟨c + i, b.Name, b.Faculty, b.Gender⟩ := by
  induction bs generalizing c i with
  | nil => simp at h
  | cons a bs ih =>
    cases i with
    | zero =>
      simp only [List.getElem?_cons_zero, Option.some.injEq] at h
      subst h
      simp [assignFrom]
    | succ i =>
      simp only [List.getElem?_cons_succ] at h
      simp only [assignFrom, List.getElem?_cons_succ]
      rw [ih (c + 1) i h]
      push_cast
      rw [Int.add_assoc, Int.add_comm 1 (i : Int)]

theorem run_creates (s : Store) (bodies : List Student) :
    run s (bodies.map postStudent) =
      ⟨s.studentList ++ assignFrom s.idCounter bodies, s.idCounter + bodies.length⟩ := by
  induction bodies generalizing s with
  | nil => simp [run_nil, assignFrom]
  | cons b bs ih =>
    rw [List.map_cons, run_cons, ih, serve_postStudent]
    simp only [assignFrom, List.append_assoc, List.singleton_append, List.length_cons]
    congr 1
    push_cast
    omega

theorem created_creates (s : Store) (bodies : List Student) :
    created s (bodies.map postStudent) = bodies.length := by
  induction bodies generalizing s with
  | nil => rfl
  | cons b bs ih =>
    rw [List.map_cons, created, ih, serve_postStudent]
    simp [Nat.add_comm]

/-- C7. List after N creates: for every sequence of N decodable bodies, the N
creates from the initial state all succeed and `GET /students` then answers
200 with exactly N records, the record at position i (from 0) having id i + 1
and the name, faculty and gender of the body at position i; with no create
the body is the empty array. -/
theorem list_after_creates (bodies : List Student) :
    created initStore (bodies.map postStudent) = bodies.length ∧
      (serve (run initStore (bodies.map postStudent)) getStudents).2.status = 200 ∧
      (serve (run initStore (bodies.map postStudent)) getStudents).2.body =
        [.students (assignFrom 1 bodies)] ∧
      (assignFrom 1 bodies).length = bodies.length ∧
      (∀ (i : Nat) (b : Student), bodies[i]? = some b →
        (assignFrom 1 bodies)[i]? = some ⟨(i : Int) + 1, b.Name, b.Faculty, b.Gender⟩) ∧
      (serve (run initStore []) getStudents).2.body = [.students []] := by
  refine ⟨created_creates _ _, ?_, ?_, assignFrom_length _ _, ?_, by decide⟩
  · simp [serve, getStudents, handleAllStudents, listStudents, encode_json_new, finish]
  · rw [run_creates]
    simp [serve, getStudents, handleAllStudents, listStudents, encode_json_new, finish,
      initStore]
  · intro i b hb
    rw [assignFrom_getElem? 1 bodies i b hb, Int.add_comm]

/-- Witness of C7: Ada then Grace are listed with ids 1 and 2, in this order. -/
theorem list_after_creates_witness :
    [ada, grace][1]? = some grace ∧
      (assignFrom 1 [ada, grace])[1]? = some ⟨2, "Grace", "Math", "F"⟩ ∧
      (serve (run initStore ([ada, grace].map postStudent)) getStudents).2.body =
        [.students [⟨1, "Ada", "CS", "F"⟩, ⟨2, "Grace", "Math", "F"⟩]] := by
  refine ⟨rfl, ?_, ?_⟩
  · have h := (list_after_creates [ada, grace]).2.2.2.2.1 1 grace rfl
    rw [h]; decide
  · have h := (list_after_creates [ada, grace]).2.2.1
    rw [h]; decide

end CRUD
